import Mathlib

/-!
# Dungeon-crawler rules engine: shallow embedding

A shallow embedding in Lean 4 of the card-game rules engine
(`src/models/Card.js`, `src/models/Deck.js`, `src/models/GameState.js`,
`src/services/GameService.js`), together with theorems settling the
specification claims about deck construction, action resolution, the
floor-refill policy, win/loss evaluation, snapshot undo, and the card
conservation invariant.

Conventions of the embedding:
* JavaScript `Infinity` used for `weaponMaxNext` is modelled as
  `Option Int` with `none` standing for the unbounded sentinel.
* Card ids (random strings in the source) are modelled as `Nat`,
  injective over distinct catalog cards.
* `health` is an `Int`, since the source lets it go negative between the
  damage subtraction and the clamp performed by the win/loss check.
* Result objects keep only the fields the claims mention (`success`,
  `healed`, `damage`, `slotIndex`); human-readable messages are dropped.
-/

namespace Crawler

/-- Card suits, in the order of `SUITS` in `constants.js`. -/
inductive Suit where
  | hearts | diamonds | clubs | spades
deriving DecidableEq, Repr

/-- Card ranks, in the order of `RANKS` in `constants.js`. -/
inductive Rank where
  | ace | r2 | r3 | r4 | r5 | r6 | r7 | r8 | r9 | r10 | jack | queen | king
deriving DecidableEq, Repr

/-- Card colors (`SUIT_COLORS`). -/
inductive Color where
  | red | black
deriving DecidableEq, Repr

/-- `SUIT_COLORS` from `constants.js`. -/
def suitColor : Suit → Color
  | .hearts => .red
  | .diamonds => .red
  | .clubs => .black
  | .spades => .black

/-- `Card.calculateValue` from `Card.js`: J=11, Q=12, K=13, A=14, numeric
ranks their face value. -/
def rankValue : Rank → Int
  | .ace => 14
  | .r2 => 2
  | .r3 => 3
  | .r4 => 4
  | .r5 => 5
  | .r6 => 6
  | .r7 => 7
  | .r8 => 8
  | .r9 => 9
  | .r10 => 10
  | .jack => 11
  | .queen => 12
  | .king => 13

/-- A playing card (`Card.js`). The `value` and `color` fields of the
source are derived deterministically from rank and suit in the
constructor, so they are modelled as functions below. -/
structure Card where
  id : Nat
  suit : Suit
  rank : Rank
deriving DecidableEq, Repr

/-- Derived card value (stored in the source constructor). -/
def Card.value (c : Card) : Int := rankValue c.rank

/-- Derived card color. -/
def Card.color (c : Card) : Color := suitColor c.suit

/-- `Card.isMonster`: clubs or spades. -/
def Card.isMonster (c : Card) : Bool :=
  c.suit = Suit.clubs || c.suit = Suit.spades

/-- `Card.isRoyal`: J, Q or K. -/
def Card.isRoyal (c : Card) : Bool :=
  c.rank = Rank.jack || c.rank = Rank.queen || c.rank = Rank.king

/-- `Card.isAce`. -/
def Card.isAce (c : Card) : Bool := c.rank = Rank.ace

/-- Weapon degradation modes (`weaponDegradation` setting). -/
inductive Degradation where
  | strict | equal | none
deriving DecidableEq, Repr

/-- Healing modes (`healingMode` setting). -/
inductive HealingMode where
  | once | unlimited
deriving DecidableEq, Repr

/-- The seven-field settings profile (`DEFAULT_GAME_SETTINGS` shape). -/
structure Settings where
  maxHealth : Int
  weaponDegradation : Degradation
  maxRuns : Nat
  healingMode : HealingMode
  includeDiamondRoyals : Bool
  includeHeartRoyals : Bool
  removeAceMonsters : Bool
deriving DecidableEq, Repr

/-- `SUITS` order from `constants.js`. -/
def SUITS : List Suit := [.hearts, .diamonds, .clubs, .spades]

/-- `RANKS` order from `constants.js`. -/
def RANKS : List Rank :=
  [.ace, .r2, .r3, .r4, .r5, .r6, .r7, .r8, .r9, .r10, .jack, .queen, .king]

/-- Index of a suit in `SUITS`, used to build injective card ids. -/
def suitIdx : Suit → Nat
  | .hearts => 0
  | .diamonds => 1
  | .clubs => 2
  | .spades => 3

/-- Index of a rank in `RANKS`. -/
def rankIdx : Rank → Nat
  | .ace => 0
  | .r2 => 1
  | .r3 => 2
  | .r4 => 3
  | .r5 => 4
  | .r6 => 5
  | .r7 => 6
  | .r8 => 7
  | .r9 => 8
  | .r10 => 9
  | .jack => 10
  | .queen => 11
  | .king => 12

/-- Catalog card constructor: the source gives each card a fresh unique
random id; here ids are the injective suit/rank encoding. -/
def newCard (s : Suit) (r : Rank) : Card :=
  ⟨suitIdx s * 13 + rankIdx r, s, r⟩

/-- `Deck.shouldIncludeCard` from `Deck.js`: the four exclusion rules
applied to the 52-card catalog. -/
def shouldIncludeCard (c : Card) (gs : Settings) : Bool :=
  if c.color = Color.red && c.isAce then false
  else if c.suit = Suit.diamonds && c.isRoyal && !gs.includeDiamondRoyals then false
  else if c.suit = Suit.hearts && c.isRoyal && !gs.includeHeartRoyals then false
  else if c.isMonster && c.isAce && gs.removeAceMonsters then false
  else true

/-- `Deck.build` from `Deck.js`: iterate suits then ranks, keeping the
cards that pass the settings filter. -/
def buildDeck (gs : Settings) : List Card :=
  (SUITS.flatMap fun s => RANKS.map fun r => newCard s r).filter
    (fun c => shouldIncludeCard c gs)

/-- Card locations a dragged card can come from (`findCardById` /
`removeCard` accept `'floor'` or `'weapon'`). -/
inductive Source where
  | floor | weapon
deriving DecidableEq, Repr

/-- The mutable game state (`GameState.js`), restricted to the twelve
fields copied by `createSnapshot`/`restoreFromSnapshot` (the
restart-only fields `originalDeck`/`initialDeckOrder` are never touched
by any action and are omitted).  `weaponMaxNext = none` models the
JavaScript `Infinity` sentinel. -/
structure GameState where
  deck : List Card
  discard : List Card
  floor : List (Option Card)
  weapon : Option Card
  weaponDamage : List Card
  weaponMaxNext : Option Int
  health : Int
  floorNumber : Nat
  runsRemaining : Nat
  floorFresh : Bool
  healUsed : Bool
  firstFloorDealt : Bool
deriving DecidableEq, Repr

/-- `GameState.floorCardCount`: number of non-null floor slots. -/
def GameState.floorCardCount (st : GameState) : Nat :=
  (st.floor.filterMap id).length

/-- `GameState.hasWon`: deck empty and floor empty. -/
def GameState.hasWon (st : GameState) : Bool :=
  st.deck.isEmpty && decide (st.floorCardCount = 0)

/-- `GameState.hasLost`: health at or below zero. -/
def GameState.hasLost (st : GameState) : Bool :=
  decide (st.health ≤ 0)

/-- `GameState.canRun`. -/
def GameState.canRun (st : GameState) : Bool :=
  decide (0 < st.runsRemaining) && st.floorFresh && decide (0 < st.floorCardCount)

/-- `GameState.canHeal`. -/
def GameState.canHeal (st : GameState) (gs : Settings) : Bool :=
  decide (gs.healingMode = HealingMode.unlimited) || !st.healUsed

/-- The id test used by `findIndex(c => c && c.id === card.id)`. -/
def idMatch (card : Card) : Option Card → Bool
  | some c => decide (c.id = card.id)
  | none => false

/-- The floor branch of `removeCard`: null out the first slot holding a
card with the matching id, or leave the floor unchanged when absent. -/
def removeFromFloor (card : Card) (floor : List (Option Card)) : List (Option Card) :=
  match floor.findIdx? (idMatch card) with
  | some i => floor.set i none
  | none => floor

/-- `GameState.removeCard`: null out the first floor slot holding a card
with the matching id, or clear the weapon state when the weapon matches;
a silent no-op when the card is not found. -/
def GameState.removeCard (st : GameState) (card : Card) (src : Source) : GameState :=
  match src with
  | .floor => { st with floor := removeFromFloor card st.floor }
  | .weapon =>
    match st.weapon with
    | some w =>
      if w.id = card.id then
        { st with weapon := none, weaponDamage := [], weaponMaxNext := none }
      else st
    | none => st

/-- `GameState.getFloorSlotIndex`: index of the card's slot, `-1` when absent. -/
def GameState.getFloorSlotIndex (st : GameState) (card : Card) : Int :=
  match st.floor.findIdx? (idMatch card) with
  | some i => (i : Int)
  | none => -1

/-- Terminal outcomes reported by `checkGameEnd`. -/
inductive GameEnd where
  | lose | win
deriving DecidableEq, Repr

/-- `GameService.checkGameEnd`: loss (with health clamped to 0) checked
before win. -/
def checkGameEnd (st : GameState) : Option GameEnd × GameState :=
  if st.hasLost then (some .lose, { st with health := 0 })
  else if st.hasWon then (some .win, st)
  else (none, st)

/-- The state mutation performed by `postAction` (its `checkGameEnd` call). -/
def postAction (st : GameState) : GameState :=
  (checkGameEnd st).2

/-- Structured action result: the fields of the source result objects
that the specification claims mention (messages dropped). -/
structure ActionResult where
  success : Bool
  healed : Option Int := none
  damage : Option Int := none
  slotIndex : Option Int := none
deriving DecidableEq, Repr

/-- A declined result (`success: false`). -/
def declined : ActionResult := { success := false }

/-- The game service's mutable pair: current state plus the undo stack
of snapshots (a snapshot is exactly the twelve `GameState` fields). -/
structure Service where
  state : GameState
  history : List GameState
deriving DecidableEq, Repr

/-- `MAX_HISTORY` from `constants.js`. -/
def maxHistory : Nat := 10

/-- `GameService.saveToHistory`: push a snapshot, evicting the oldest
when the stack exceeds `MAX_HISTORY`. -/
def saveToHistory (sv : Service) : Service :=
  let h := sv.history ++ [sv.state]
  { sv with history := if maxHistory < h.length then h.tail else h }

/-- `GameService.undo`: `false` on an empty stack, otherwise pop the
most recent snapshot and restore it wholesale. -/
def undo (sv : Service) : Bool × Service :=
  match sv.history.getLast? with
  | none => (false, sv)
  | some snap => (true, ⟨snap, sv.history.dropLast⟩)

/-- `GameService.handleHeal`. -/
def handleHeal (gs : Settings) (card : Card) (src : Source) (sv : Service) :
    ActionResult × Service :=
  if card.suit = Suit.hearts then
    let sv1 := saveToHistory sv
    let st1 := sv1.state.removeCard card src
    let st2 := { st1 with discard := st1.discard ++ [card], floorFresh := false }
    if st2.canHeal gs then
      let st3 := { st2 with healUsed := true }
      let healed := min gs.maxHealth (st3.health + card.value) - st3.health
      let st4 := { st3 with health := min gs.maxHealth (st3.health + card.value) }
      ({ success := true, healed := some healed }, ⟨postAction st4, sv1.history⟩)
    else
      ({ success := true, healed := some 0 }, ⟨postAction st2, sv1.history⟩)
  else (declined, sv)

/-- `GameService.handleEquipWeapon`. -/
def handleEquipWeapon (gs : Settings) (card : Card) (src : Source) (sv : Service) :
    ActionResult × Service :=
  if card.suit = Suit.diamonds then
    let sv1 := saveToHistory sv
    let st1 := sv1.state.removeCard card src
    let st2 :=
      match st1.weapon with
      | some w => { st1 with discard := st1.discard ++ [w] ++ st1.weaponDamage }
      | none => st1
    let st3 := { st2 with weapon := some card, weaponDamage := [],
                          weaponMaxNext := none, floorFresh := false }
    ({ success := true }, ⟨postAction st3, sv1.history⟩)
  else (declined, sv)

/-- `monsterValue > weaponMaxNext` where the bound may be `Infinity`. -/
def gtBound (v : Int) (b : Option Int) : Bool :=
  match b with
  | none => false
  | some m => decide (m < v)

/-- `Math.min(weaponMaxNext, x)` where the bound may be `Infinity`. -/
def minBound (b : Option Int) (x : Int) : Option Int :=
  match b with
  | none => some x
  | some m => some (min m x)

/-- The weapon-degradation bound update applied after a won fight:
`min(weaponMaxNext, monsterValue − 1)` under strict,
`min(weaponMaxNext, monsterValue)` under equal, unchanged under none. -/
def applyDegradation (gs : Settings) (b : Option Int) (v : Int) : Option Int :=
  match gs.weaponDegradation with
  | .strict => minBound b (v - 1)
  | .equal => minBound b v
  | .none => b

/-- `GameService.handleFightMonster`.  Result `none` models the
JavaScript `TypeError` thrown when `removeCard` already cleared the
weapon (only possible when the fought card *is* the equipped weapon,
dragged from the weapon slot); every interface-reachable call returns
`some`. -/
def handleFightMonster (gs : Settings) (card : Card) (src : Source) (sv : Service) :
    Option (ActionResult × Service) :=
  match sv.state.weapon with
  | none => some (declined, sv)
  | some _ =>
    if gs.weaponDegradation ≠ Degradation.none ∧ gtBound card.value sv.state.weaponMaxNext then
      some (declined, sv)
    else
      let slotIndex := sv.state.getFloorSlotIndex card
      let sv1 := saveToHistory sv
      let st1 := sv1.state.removeCard card src
      match st1.weapon with
      | none => none
      | some w =>
        let damage := max 0 (card.value - w.value)
        let st2 := { st1 with health := st1.health - damage,
                              weaponDamage := st1.weaponDamage ++ [card],
                              weaponMaxNext := applyDegradation gs st1.weaponMaxNext card.value,
                              floorFresh := false }
        some ({ success := true, damage := some damage, slotIndex := some slotIndex },
              ⟨postAction st2, sv1.history⟩)

/-- `GameService.handleTakeDamage` (the tank action). -/
def handleTakeDamage (gs : Settings) (card : Card) (src : Source) (sv : Service) :
    ActionResult × Service :=
  if card.suit = Suit.hearts ∨ card.suit = Suit.diamonds then (declined, sv)
  else
    let sv1 := saveToHistory sv
    let damage := card.value
    let st1 := sv1.state.removeCard card src
    let st2 := { st1 with health := st1.health - damage,
                          discard := st1.discard ++ [card], floorFresh := false }
    ({ success := true, damage := some damage }, ⟨postAction st2, sv1.history⟩)

/-- `GameService.handleDiscardWeapon`. -/
def handleDiscardWeapon (sv : Service) : ActionResult × Service :=
  match sv.state.weapon with
  | none => (declined, sv)
  | some w =>
    let sv1 := saveToHistory sv
    let st := sv1.state
    let st1 := { st with discard := st.discard ++ [w] ++ st.weaponDamage,
                         weapon := none, weaponDamage := [],
                         weaponMaxNext := none, floorFresh := false }
    ({ success := true }, ⟨postAction st1, sv1.history⟩)

/-- `GameService.handleRunAway` (no `postAction` in the source: the
handler saves state and the caller deals the new floor separately). -/
def handleRunAway (gs : Settings) (sv : Service) : ActionResult × Service :=
  if sv.state.canRun then
    let sv1 := saveToHistory sv
    let st := sv1.state
    let st1 := { st with deck := st.deck ++ st.floor.filterMap id,
                         floor := [none, none, none, none],
                         runsRemaining := st.runsRemaining - 1,
                         floorFresh := true, healUsed := false,
                         floorNumber := st.floorNumber + 1 }
    ({ success := true }, ⟨st1, sv1.history⟩)
  else (declined, sv)

/-- `GameService.drawNewFloorAfterRun`: overwrite slots 0..3 in order
with cards shifted from the deck while cards remain (stated for the
4-slot floors the game maintains). -/
def drawNewFloorAfterRun (st : GameState) : GameState :=
  let k := min 4 st.deck.length
  { st with floor := (st.deck.take k).map some ++ st.floor.drop k,
            deck := st.deck.drop k }

/-- The refill loop of `checkAndRefillFloor`: walk the floor slots
left-to-right, filling each empty slot with a card shifted from the
deck, stopping once the `needed` budget is used up. -/
def fillSlots : List (Option Card) → List Card → Nat → List (Option Card) × List Card
  | floor, deck, 0 => (floor, deck)
  | [], deck, _ + 1 => ([], deck)
  | some c :: rest, deck, n + 1 =>
    let p := fillSlots rest deck (n + 1)
    (some c :: p.1, p.2)
  | none :: rest, [], _ + 1 => (none :: rest, [])
  | none :: rest, c :: deck, n + 1 =>
    let p := fillSlots rest deck n
    (some c :: p.1, p.2)

/-- `GameService.checkAndRefillFloor`: refill exactly when at most one
floor card remains and the deck is non-empty; the `Bool` reports whether
a refill happened (`null` vs. refill-info in the source). -/
def checkAndRefillFloor (st : GameState) : Bool × GameState :=
  if 1 < st.floorCardCount ∨ st.deck = [] then (false, st)
  else
    let needed := min 3 st.deck.length
    let p := fillSlots st.floor st.deck needed
    (true, { st with floor := p.1, deck := p.2,
                     floorNumber := st.floorNumber + 1,
                     floorFresh := true, healUsed := false })

/-- The six player actions of the resolver. -/
inductive Action where
  | heal (card : Card) (src : Source)
  | equip (card : Card) (src : Source)
  | fight (card : Card) (src : Source)
  | tank (card : Card) (src : Source)
  | discardWeapon
  | runAway
deriving DecidableEq, Repr

/-- Dispatch to the resolver methods of `GameService` (the resolver
calls only; no refill). -/
def resolveAction (gs : Settings) (a : Action) (sv : Service) :
    Option (ActionResult × Service) :=
  match a with
  | .heal c s => some (handleHeal gs c s sv)
  | .equip c s => some (handleEquipWeapon gs c s sv)
  | .fight c s => handleFightMonster gs c s sv
  | .tank c s => some (handleTakeDamage gs c s sv)
  | .discardWeapon => some (handleDiscardWeapon sv)
  | .runAway => some (handleRunAway gs sv)

/-- `checkGameEndAfterAction` in `index.js`: re-run the win/loss check,
stop on a loss, otherwise run the floor-refill policy once. -/
def afterAction (st : GameState) : GameState :=
  match checkGameEnd st with
  | (some .lose, st1) => st1
  | (_, st1) => (checkAndRefillFloor st1).2

/-- One fully resolved action as driven by `index.js`: resolver call,
then for card actions the end-check/refill step, and for a successful
run-away the `drawNewFloorAfterRun` call. -/
def resolveFull (gs : Settings) (a : Action) (sv : Service) :
    Option (ActionResult × Service) :=
  match a with
  | .runAway =>
    let p := handleRunAway gs sv
    if p.1.success then
      some (p.1, { p.2 with state := drawNewFloorAfterRun p.2.state })
    else some p
  | _ =>
    match resolveAction gs a sv with
    | none => none
    | some (r, sv1) => some (r, { sv1 with state := afterAction sv1.state })

/-- The multiset of all cards in play: floor slots, equipped weapon,
trophy pile, discard pile and deck (the §3 partition invariant). -/
def allCards (st : GameState) : Multiset Card :=
  (st.floor.filterMap id ++ st.weapon.toList ++ st.weaponDamage ++ st.discard ++ st.deck : List Card)

/-! ## Auxiliary definitions for the development -/

/-- Shape of a resolver outcome: success with exactly one snapshot
pushed, or a decline leaving the service untouched. -/
def ResolvedShape (sv : Service) (p : ActionResult × Service) : Prop :=
  (p.1.success = true ∧ p.2.history = (saveToHistory sv).history) ∨
  (p.1.success = false ∧ p.2 = sv)

/-- `buildDeck` depends only on the three filter flags. -/
def deckFlags (d h a : Bool) : List Card :=
  buildDeck ⟨0, .strict, 0, .once, d, h, a⟩

/-- Number of empty slots on a floor. -/
def noneCount (floor : List (Option Card)) : Nat :=
  (floor.filter (fun c => c.isNone)).length

/-- Spec-side placement description for the refill policy (§4.2), named
for comparison against the code's fill loop: walk the floor slots
left-to-right, placing the next drawn card into each empty slot until
the drawn cards run out; occupied slots keep their cards in place. -/
def specLeftToRightFill : List (Option Card) → List Card → List (Option Card)
  | [], _ => []
  | some c :: rest, cs => some c :: specLeftToRightFill rest cs
  | none :: rest, [] => none :: rest
  | none :: rest, c :: cs => some c :: specLeftToRightFill rest cs

/-! ## Concrete example inputs used by counterexamples and witnesses -/

/-- The default settings profile (`DEFAULT_GAME_SETTINGS`). -/
def exGs : Settings := ⟨20, .strict, 1, .once, false, false, false⟩

def exD2 : Card := newCard .diamonds .r2

def exC4 : Card := newCard .clubs .r4

def exC5 : Card := newCard .clubs .r5

def exS6 : Card := newCard .spades .r6

def exH7 : Card := newCard .hearts .r7

/-- A mid-game state: one card in the deck, a full fresh floor. -/
def exState : GameState :=
  ⟨[exC4], [], [some exD2, some exC5, some exS6, some exH7], none, [], none,
   20, 1, 1, true, false, true⟩

def exSv : Service := ⟨exState, []⟩

/-- A state with an equipped fresh weapon and one monster on the floor. -/
def exSvF : Service :=
  ⟨⟨[], [], [some exC5, none, none, none], some exD2, [], none, 20, 1, 1, true,
    false, true⟩, []⟩

/-- A state about to trigger a floor refill: one floor card, 3 in deck. -/
def exRefillSt : GameState :=
  ⟨[exC4, exS6, exH7], [], [none, some exC5, none, none], none, [], none,
   10, 1, 1, false, true, true⟩

/-- The resolved value of a tank action on the example state. -/
def exTankP : ActionResult × Service :=
  (resolveFull exGs (Action.tank exC5 Source.floor) exSv).getD (declined, exSv)

/-- The resolved value of a fight action on the example weapon state. -/
def exFightP : ActionResult × Service :=
  (handleFightMonster exGs exC5 Source.floor exSvF).getD (declined, exSvF)

/-- The resolved value of a run-away action on the example state. -/
def exRunP : ActionResult × Service :=
  (resolveFull exGs Action.runAway exSv).getD (declined, exSv)

/-! ## History and shape lemmas -/

/-- The bounded push of `saveToHistory` always leaves the just-pushed
snapshot on top, whether or not the oldest entry was evicted. -/
lemma saveToHistory_getLast (sv : Service) :
    (saveToHistory sv).history.getLast? = some sv.state := by
  unfold saveToHistory
  cases h : sv.history with
  | nil => simp [maxHistory]
  | cons a as =>
    simp only [maxHistory, List.cons_append, List.length_cons, List.tail_cons]
    split
    · exact List.getLast?_concat _
    · rw [show a :: (as ++ [sv.state]) = (a :: as) ++ [sv.state] by simp]
      exact List.getLast?_concat _

lemma saveToHistory_state (sv : Service) : (saveToHistory sv).state = sv.state := rfl

/-- `undo` on any service whose history is the bounded push of the
prior state pops exactly that snapshot. -/
lemma undo_of_push (st : GameState) (sv : Service) :
    undo ⟨st, (saveToHistory sv).history⟩ =
      (true, ⟨sv.state, (saveToHistory sv).history.dropLast⟩) := by
  unfold undo
  rw [saveToHistory_getLast]

lemma handleHeal_shape (gs : Settings) (c : Card) (s : Source) (sv : Service) :
    ResolvedShape sv (handleHeal gs c s sv) := by
  unfold ResolvedShape handleHeal
  split
  · simp only []
    split <;> simp
  · simp [declined]

lemma handleEquipWeapon_shape (gs : Settings) (c : Card) (s : Source) (sv : Service) :
    ResolvedShape sv (handleEquipWeapon gs c s sv) := by
  unfold ResolvedShape handleEquipWeapon
  split
  · simp
  · simp [declined]

lemma handleFightMonster_shape (gs : Settings) (c : Card) (s : Source) (sv : Service)
    (p : ActionResult × Service) (h : handleFightMonster gs c s sv = some p) :
    ResolvedShape sv p := by
  unfold ResolvedShape
  unfold handleFightMonster at h
  split at h
  · simp only [Option.some.injEq] at h
    simp [← h, declined]
  · split at h
    · simp only [Option.some.injEq] at h
      simp [← h, declined]
    · simp only [] at h
      split at h
      · simp at h
      · simp only [Option.some.injEq] at h
        simp [← h]

lemma handleTakeDamage_shape (gs : Settings) (c : Card) (s : Source) (sv : Service) :
    ResolvedShape sv (handleTakeDamage gs c s sv) := by
  unfold ResolvedShape handleTakeDamage
  split <;> simp [declined]

lemma handleDiscardWeapon_shape (sv : Service) :
    ResolvedShape sv (handleDiscardWeapon sv) := by
  unfold ResolvedShape handleDiscardWeapon
  split <;> simp [declined]

lemma handleRunAway_shape (gs : Settings) (sv : Service) :
    ResolvedShape sv (handleRunAway gs sv) := by
  unfold ResolvedShape handleRunAway
  split <;> simp [declined]

lemma resolveAction_shape (gs : Settings) (a : Action) (sv : Service)
    (p : ActionResult × Service) (h : resolveAction gs a sv = some p) :
    ResolvedShape sv p := by
  cases a <;> simp only [resolveAction, Option.some.injEq] at h
  case heal c s => exact h ▸ handleHeal_shape gs c s sv
  case equip c s => exact h ▸ handleEquipWeapon_shape gs c s sv
  case fight c s => exact handleFightMonster_shape gs c s sv p h
  case tank c s => exact h ▸ handleTakeDamage_shape gs c s sv
  case discardWeapon => exact h ▸ handleDiscardWeapon_shape sv
  case runAway => exact h ▸ handleRunAway_shape gs sv

/-! ## Resolution lemmas and claim theorems -/

/-- A successful full resolution (resolver plus end-check/refill or
run-away redeal) carries exactly the snapshot stack pushed from the
pre-action state: the later steps never touch the history. -/
lemma resolveFull_history (gs : Settings) (a : Action) (sv : Service)
    (p : ActionResult × Service) (h : resolveFull gs a sv = some p)
    (hs : p.1.success = true) :
    p.2.history = (saveToHistory sv).history := by
  unfold resolveFull at h
  cases a
  case runAway =>
    simp only [] at h
    split_ifs at h with hb
    · simp only [Option.some.injEq] at h
      rcases handleRunAway_shape gs sv with ⟨_, hh⟩ | ⟨hf, _⟩
      · rw [← h]; exact hh
      · rw [hf] at hb; exact absurd hb (by simp)
    · simp only [Option.some.injEq] at h
      rw [← h] at hs
      exact absurd hs hb
  all_goals {
    simp only [] at h
    rcases hr : resolveAction gs _ sv with _ | q
    · rw [hr] at h; simp at h
    · rw [hr] at h
      simp only [Option.some.injEq] at h
      rcases resolveAction_shape gs _ sv q hr with ⟨_, hh⟩ | ⟨hf, _⟩
      · rw [← h]; exact hh
      · rw [← h] at hs; simp at hs; rw [hs] at hf; simp at hf
  }

/-- C3: a snapshot is pushed before every successful mutation, and undo
pops it back, refill included; undo on an empty history is a no-op. -/
theorem undo_restores :
    (∀ (gs : Settings) (a : Action) (sv : Service) (p : ActionResult × Service),
       resolveFull gs a sv = some p → p.1.success = true →
       (undo p.2).1 = true ∧ (undo p.2).2.state = sv.state) ∧
    (∀ sv : Service, sv.history = [] → undo sv = (false, sv)) := by
  constructor
  · intro gs a sv p h hs
    have hh := resolveFull_history gs a sv p h hs
    have : undo p.2 = (true, ⟨sv.state, (saveToHistory sv).history.dropLast⟩) := by
      have : p.2 = ⟨p.2.state, (saveToHistory sv).history⟩ := by rw [← hh]
      rw [this]
      exact undo_of_push _ sv
    rw [this]
    exact ⟨rfl, rfl⟩
  · intro sv h
    unfold undo
    rw [h]
    rfl

/-- C10: a declined resolver call leaves the whole service (game state
and history stack) untouched. -/
theorem declined_no_mutation (gs : Settings) (a : Action) (sv : Service)
    (p : ActionResult × Service) (h : resolveAction gs a sv = some p)
    (hf : p.1.success = false) : p.2 = sv := by
  rcases resolveAction_shape gs a sv p h with ⟨ht, _⟩ | ⟨_, he⟩
  · rw [ht] at hf; simp at hf
  · exact he


/-! ## Concrete example inputs -/

theorem undo_restores_witness :
    (undo exTankP.2).1 = true ∧ (undo exTankP.2).2.state = exSv.state :=
  undo_restores.1 exGs (Action.tank exC5 Source.floor) exSv exTankP (by decide) (by decide)

theorem declined_no_mutation_witness :
    ((declined, exSv) : ActionResult × Service).2 = exSv :=
  declined_no_mutation exGs Action.discardWeapon exSv (declined, exSv) (by decide) (by decide)

/-- C8: the win/loss evaluator reports a loss exactly on non-positive
health (clamping it), a win exactly on empty deck and floor without a
loss, and otherwise reports nothing and changes nothing. -/
theorem checkGameEnd_spec (st : GameState) :
    ((checkGameEnd st).1 = some GameEnd.lose ↔ st.health ≤ 0) ∧
    ((checkGameEnd st).1 = some GameEnd.win ↔
       ¬st.health ≤ 0 ∧ st.deck = [] ∧ st.floorCardCount = 0) ∧
    (checkGameEnd st).2 = { st with health := if st.health ≤ 0 then 0 else st.health } := by
  unfold checkGameEnd GameState.hasLost GameState.hasWon
  by_cases h0 : st.health ≤ 0
  · simp [h0]
  · by_cases hd : st.deck.isEmpty
    · by_cases hf : st.floorCardCount = 0
      · have hde : st.deck = [] := List.isEmpty_iff.mp hd
        exact ⟨by simp [h0, hde, hf], by simp [h0, hd, hf, hde], by rw [if_neg (by simp [h0]), if_pos (by simp [hde, hf])]; simp [h0]⟩
      · simp [h0, hd, hf]
    · have : st.deck ≠ [] := fun he => hd (by simp [he])
      simp [h0, hd, this]

/-- C4 counterexample: with diamond and heart royals excluded and ace
monsters removed, the built deck has 42 cards, below the claimed lower
bound of 44. -/
theorem buildDeck_size_counterexample :
    (buildDeck ⟨20, .strict, 1, .once, false, false, true⟩).length = 42 ∧
    ¬(44 ≤ (buildDeck ⟨20, .strict, 1, .once, false, false, true⟩).length) := by
  decide

lemma buildDeck_eq_flags (gs : Settings) :
    buildDeck gs = deckFlags gs.includeDiamondRoyals gs.includeHeartRoyals gs.removeAceMonsters := by
  obtain ⟨mh, wd, mr, hm, d, h, a⟩ := gs
  cases d <;> cases h <;> cases a <;> rfl

/-- C4 amended: for every settings profile the built deck contains no
red ace and its size lies between 42 and 50 cards inclusive. -/
theorem buildDeck_spec (gs : Settings) :
    (∀ c ∈ buildDeck gs, ¬(c.color = Color.red ∧ c.isAce = true)) ∧
    42 ≤ (buildDeck gs).length ∧ (buildDeck gs).length ≤ 50 := by
  rw [buildDeck_eq_flags]
  generalize gs.includeDiamondRoyals = b1
  generalize gs.includeHeartRoyals = b2
  generalize gs.removeAceMonsters = b3
  revert b1 b2 b3
  decide

/-- C2 failing input: re-equipping the already-equipped weapon (dragged
from the weapon slot) silently drops the weapon's trophy pile from
every zone — the card-conservation invariant is violated. -/
theorem equip_self_loses_trophies :
    (let st : GameState :=
      ⟨[], [], [none, none, none, none], some exD2, [exC5], some 4,
       10, 1, 1, false, false, true⟩
     let p := handleEquipWeapon exGs exD2 Source.weapon ⟨st, []⟩
     p.1.success = true ∧
     exC5 ∈ allCards st ∧
     exC5 ∉ allCards p.2.state ∧
     allCards p.2.state ≠ allCards st) := by
  decide


/-- `postAction` only clamps a non-positive health to zero. -/
lemma postAction_eq (st : GameState) :
    postAction st = { st with health := if st.health ≤ 0 then 0 else st.health } := by
  unfold postAction checkGameEnd GameState.hasLost GameState.hasWon
  by_cases h0 : st.health ≤ 0
  · simp [h0]
  · rw [if_neg (by simp [h0])]
    split <;> simp [h0]

/-- C1 counterexample: under strict degradation the code lets the
weapon fight a monster whose value *equals* `weaponMaxNext` (the check
is `value ≤ bound` in both strict and equal modes; strictness only
changes the bound update). -/
theorem fight_bound_counterexample :
    (let sv : Service :=
      ⟨⟨[], [], [some exC4, none, none, none], some exD2, [exC5], some 4,
        17, 1, 1, false, false, true⟩, []⟩
     exGs.weaponDegradation = Degradation.strict ∧
     sv.state.weaponMaxNext = some (4 : Int) ∧
     exC4.value = 4 ∧ ¬((4 : Int) < 4) ∧
     (handleFightMonster exGs exC4 Source.floor sv).map (fun p => p.1.success) = some true) := by
  decide

/-- C1 amended: a floor-sourced fight succeeds exactly when a weapon is
equipped and, unless degradation is `none`, the monster's value is at
most `weaponMaxNext`; on success health drops by
`max 0 (monsterValue − weaponValue)` (clamped at zero by the
post-action check), the monster joins `weaponDamage` (not the discard
pile) and the bound update follows the degradation mode. -/
theorem fight_spec (gs : Settings) (card : Card) (sv : Service)
    (p : ActionResult × Service)
    (h : handleFightMonster gs card Source.floor sv = some p) :
    (p.1.success = true ↔ sv.state.weapon ≠ none ∧
       (gs.weaponDegradation = Degradation.none ∨
        gtBound card.value sv.state.weaponMaxNext = false)) ∧
    (p.1.success = false → p.2 = sv) ∧
    (∀ w, sv.state.weapon = some w → p.1.success = true →
       p.1.damage = some (max 0 (card.value - w.value)) ∧
       p.2.state.health = (if sv.state.health - max 0 (card.value - w.value) ≤ 0 then 0
                           else sv.state.health - max 0 (card.value - w.value)) ∧
       p.2.state.weaponDamage = sv.state.weaponDamage ++ [card] ∧
       p.2.state.discard = sv.state.discard ∧
       p.2.state.weapon = some w ∧
       p.2.state.weaponMaxNext = applyDegradation gs sv.state.weaponMaxNext card.value) := by
  unfold handleFightMonster at h
  split at h
  case h_1 heq =>
    simp only [Option.some.injEq] at h
    refine ⟨by simp [← h, declined, heq], by intro _; simp [← h], ?_⟩
    intro w hw
    rw [heq] at hw
    exact absurd hw (by simp)
  case h_2 w0 heq =>
    split_ifs at h with hguard
    · simp only [Option.some.injEq] at h
      refine ⟨?_, by intro _; simp [← h], ?_⟩
      · rw [← h]
        simp only [declined]
        constructor
        · intro hfalse; exact absurd hfalse (by simp)
        · rintro ⟨-, hok⟩
          rcases hok with hmode | hgt
          · exact absurd hmode hguard.1
          · rw [hguard.2] at hgt; exact absurd hgt (by simp)
      · intro w hw hs
        rw [← h] at hs
        exact absurd hs (by simp [declined])
    · simp only [] at h
      rw [show ((saveToHistory sv).state.removeCard card Source.floor).weapon
            = sv.state.weapon from rfl, heq] at h
      simp only [Option.some.injEq] at h
      have hok : gs.weaponDegradation = Degradation.none ∨
          gtBound card.value sv.state.weaponMaxNext = false := by
        rw [not_and_or] at hguard
        rcases hguard with h1 | h2
        · exact Or.inl (by simpa using h1)
        · exact Or.inr (by simpa using h2)
      refine ⟨by simp [← h, heq, hok], by intro hfalse; rw [← h] at hfalse; simp at hfalse, ?_⟩
      intro w hw _
      rw [heq] at hw
      injection hw with hww
      subst hww
      rw [← h]
      simp [postAction_eq]
      exact ⟨rfl, rfl, rfl, rfl⟩

theorem fight_spec_witness :
    exFightP.1.success = true ↔ exSvF.state.weapon ≠ none ∧
      (exGs.weaponDegradation = Degradation.none ∨
       gtBound exC5.value exSvF.state.weaponMaxNext = false) :=
  (fight_spec exGs exC5 exSvF exFightP (by decide)).1

/-- Every card value is at least 2 (aces count 14). -/
lemma rankValue_pos (r : Rank) : 0 < rankValue r := by
  cases r <;> decide

/-- `canHeal` in terms of the settings and the heal-used flag. -/
lemma canHeal_eq (st : GameState) (gs : Settings) :
    st.canHeal gs = true ↔
      (gs.healingMode = HealingMode.unlimited ∨ st.healUsed = false) := by
  unfold GameState.canHeal
  cases h : st.healUsed <;> by_cases hm : gs.healingMode = HealingMode.unlimited <;> simp [hm]

/-- `removeCard` from the floor only rewrites the floor. -/
lemma removeCard_floor_eq (st : GameState) (c : Card) :
    st.removeCard c Source.floor = { st with floor := removeFromFloor c st.floor } := rfl

/-- C7: a floor heart played as a heal is always consumed to the
discard pile; it heals `min(maxHealth, health+value) − health` exactly
when healing is unlimited or unused on this floor, else heals 0. -/
theorem heal_spec (gs : Settings) (card : Card) (sv : Service) (i : Nat)
    (hsuit : card.suit = Suit.hearts)
    (hfind : sv.state.floor.findIdx? (idMatch card) = some i)
    (hslot : sv.state.floor.get? i = some (some card))
    (hh : 0 ≤ sv.state.health) (hmax : 0 < gs.maxHealth) :
    (handleHeal gs card Source.floor sv).1.success = true ∧
    (handleHeal gs card Source.floor sv).2.state.floor = sv.state.floor.set i none ∧
    (handleHeal gs card Source.floor sv).2.state.discard = sv.state.discard ++ [card] ∧
    (if gs.healingMode = HealingMode.unlimited ∨ sv.state.healUsed = false then
       (handleHeal gs card Source.floor sv).1.healed =
         some (min gs.maxHealth (sv.state.health + card.value) - sv.state.health) ∧
       (handleHeal gs card Source.floor sv).2.state.health =
         min gs.maxHealth (sv.state.health + card.value) ∧
       (handleHeal gs card Source.floor sv).2.state.healUsed = true
     else
       (handleHeal gs card Source.floor sv).1.healed = some 0 ∧
       (handleHeal gs card Source.floor sv).2.state.health = sv.state.health) := by
  have hremove : removeFromFloor card sv.state.floor = sv.state.floor.set i none := by
    unfold removeFromFloor
    rw [hfind]
  have hv : 0 < card.value := rankValue_pos card.rank
  unfold handleHeal
  rw [if_pos hsuit]
  simp only [removeCard_floor_eq, saveToHistory_state]
  by_cases hc : gs.healingMode = HealingMode.unlimited ∨ sv.state.healUsed = false
  · rw [if_pos ((canHeal_eq _ gs).mpr (by simpa using hc)), if_pos hc]
    have hclamp : ¬ (min gs.maxHealth (sv.state.health + card.value) ≤ 0) := by
      have h1 : 0 < sv.state.health + card.value := by omega
      have := lt_min hmax h1
      omega
    refine ⟨rfl, ?_, ?_, rfl, ?_, ?_⟩
    · simp only [postAction_eq]
      exact hremove
    · simp only [postAction_eq]
    · simp only [postAction_eq]
      rw [if_neg hclamp]
    · simp only [postAction_eq]
  · rw [if_neg (fun ht => hc (by simpa using (canHeal_eq _ gs).mp ht)), if_neg hc]
    refine ⟨rfl, ?_, ?_, rfl, ?_⟩
    · simp only [postAction_eq]
      exact hremove
    · simp only [postAction_eq]
    · simp only [postAction_eq]
      split
      · omega
      · rfl


theorem heal_spec_witness :
    (handleHeal exGs exH7 Source.floor exSv).1.success = true :=
  (heal_spec exGs exH7 exSv 3 (by decide) (by decide) (by decide) (by decide) (by decide)).1

lemma noneCount_add (floor : List (Option Card)) :
    noneCount floor + (floor.filterMap id).length = floor.length := by
  induction floor with
  | nil => rfl
  | cons hd tl ih =>
    cases hd <;> simp [noneCount, List.filter] at ih ⊢ <;> omega

lemma fillSlots_deck (floor : List (Option Card)) (deck : List Card) (n : Nat)
    (hdeck : n ≤ deck.length) (hfree : n ≤ noneCount floor) :
    (fillSlots floor deck n).2 = deck.drop n := by
  induction floor generalizing deck n with
  | nil =>
    have : n = 0 := Nat.le_zero.mp (by simpa [noneCount] using hfree)
    subst this
    simp [fillSlots]
  | cons hd tl ih =>
    match n with
    | 0 => simp [fillSlots]
    | n + 1 =>
      cases hd with
      | some c =>
        have hfree' : n + 1 ≤ noneCount tl := by simpa [noneCount, List.filter] using hfree
        simpa [fillSlots] using ih deck (n + 1) hdeck hfree'
      | none =>
        cases deck with
        | nil => simp at hdeck
        | cons d ds =>
          have hfree' : n ≤ noneCount tl := by
            simp [noneCount, List.filter] at hfree ⊢
            omega
          simpa [fillSlots] using ih ds n (by simpa using hdeck) hfree'

lemma fillSlots_cards (floor : List (Option Card)) (deck : List Card) (n : Nat)
    (hdeck : n ≤ deck.length) (hfree : n ≤ noneCount floor) :
    List.Perm ((fillSlots floor deck n).1.filterMap id) (floor.filterMap id ++ deck.take n) := by
  induction floor generalizing deck n with
  | nil =>
    have : n = 0 := Nat.le_zero.mp (by simpa [noneCount] using hfree)
    subst this
    simp [fillSlots]
  | cons hd tl ih =>
    match n with
    | 0 => simp [fillSlots]
    | n + 1 =>
      cases hd with
      | some c =>
        have hfree' : n + 1 ≤ noneCount tl := by simpa [noneCount, List.filter] using hfree
        have := ih deck (n + 1) hdeck hfree'
        simpa [fillSlots] using this.cons c
      | none =>
        cases deck with
        | nil => simp at hdeck
        | cons d ds =>
          have hfree' : n ≤ noneCount tl := by
            simp [noneCount, List.filter] at hfree ⊢
            omega
          have h1 := (ih ds n (by simpa using hdeck) hfree').cons d
          have h2 : List.Perm (d :: (tl.filterMap id ++ ds.take n)) (tl.filterMap id ++ d :: ds.take n) :=
            List.perm_middle.symm
          simpa [fillSlots] using h1.trans h2

lemma fillSlots_keeps (floor : List (Option Card)) (deck : List Card) (n : Nat) :
    ∀ i c, floor.get? i = some (some c) → (fillSlots floor deck n).1.get? i = some (some c) := by
  induction floor generalizing deck n with
  | nil => intro i c hi; simp at hi
  | cons hd tl ih =>
    intro i c hi
    match n with
    | 0 => simpa [fillSlots] using hi
    | n + 1 =>
      cases hd with
      | some c0 =>
        cases i with
        | zero => simpa [fillSlots] using hi
        | succ j =>
          simp only [List.get?_cons_succ] at hi
          simpa [fillSlots] using ih deck (n + 1) j c hi
      | none =>
        cases deck with
        | nil =>
          cases i with
          | zero => simp at hi
          | succ j => simpa [fillSlots] using hi
        | cons d ds =>
          cases i with
          | zero => simp at hi
          | succ j =>
            simp only [List.get?_cons_succ] at hi
            simpa [fillSlots] using ih ds n j c hi


lemma specLeftToRightFill_nil (floor : List (Option Card)) :
    specLeftToRightFill floor [] = floor := by
  induction floor with
  | nil => rfl
  | cons hd tl ih =>
    cases hd with
    | some c => simp [specLeftToRightFill, ih]
    | none => rfl

/-- The code's budgeted fill loop places exactly the first `n` deck
cards into the empty slots left-to-right. -/
lemma fillSlots_eq_spec (floor : List (Option Card)) (deck : List Card) (n : Nat) :
    (fillSlots floor deck n).1 = specLeftToRightFill floor (deck.take n) := by
  induction floor generalizing deck n with
  | nil => cases n <;> rfl
  | cons hd tl ih =>
    match n with
    | 0 => simp [fillSlots, specLeftToRightFill_nil]
    | n + 1 =>
      cases hd with
      | some c => simp [fillSlots, specLeftToRightFill, ih deck (n + 1)]
      | none =>
        cases deck with
        | nil => rfl
        | cons d ds => simp [fillSlots, specLeftToRightFill, ih ds n]

/-- C5: the refill policy fires exactly when at most one floor card
remains and the deck is non-empty; it then moves `min(3, deck.length)`
cards from the top of the deck into the empty slots left-to-right (the
resulting floor equals the spec-side left-to-right placement exactly,
so occupied slots keep their cards and positions), bumps the floor
number, resets the flags, and touches nothing else; otherwise it
changes nothing. -/
theorem refill_spec (st : GameState) (hlen : st.floor.length = 4) :
    ((st.floorCardCount ≤ 1 ∧ st.deck ≠ []) →
       (checkAndRefillFloor st).1 = true ∧
       (checkAndRefillFloor st).2.deck = st.deck.drop (min 3 st.deck.length) ∧
       ((checkAndRefillFloor st).2.floor.filterMap id : Multiset Card) =
         ↑(st.floor.filterMap id ++ st.deck.take (min 3 st.deck.length)) ∧
       (checkAndRefillFloor st).2.floor =
         specLeftToRightFill st.floor (st.deck.take (min 3 st.deck.length)) ∧
       (checkAndRefillFloor st).2.floorCardCount = st.floorCardCount + min 3 st.deck.length ∧
       (∀ i c, st.floor.get? i = some (some c) →
          (checkAndRefillFloor st).2.floor.get? i = some (some c)) ∧
       (checkAndRefillFloor st).2.floorNumber = st.floorNumber + 1 ∧
       (checkAndRefillFloor st).2.floorFresh = true ∧
       (checkAndRefillFloor st).2.healUsed = false ∧
       (checkAndRefillFloor st).2.health = st.health ∧
       (checkAndRefillFloor st).2.weapon = st.weapon ∧
       (checkAndRefillFloor st).2.weaponDamage = st.weaponDamage ∧
       (checkAndRefillFloor st).2.discard = st.discard) ∧
    (¬(st.floorCardCount ≤ 1 ∧ st.deck ≠ []) → checkAndRefillFloor st = (false, st)) := by
  constructor
  · rintro ⟨hcount, hdeck⟩
    have hneed : min 3 st.deck.length ≤ st.deck.length := min_le_right _ _
    have hfree : min 3 st.deck.length ≤ noneCount st.floor := by
      have hnc := noneCount_add st.floor
      have h3 : min 3 st.deck.length ≤ 3 := min_le_left _ _
      unfold GameState.floorCardCount at hcount
      omega
    have hcond : ¬(1 < st.floorCardCount ∨ st.deck = []) := by
      push_neg
      exact ⟨by omega, hdeck⟩
    unfold checkAndRefillFloor
    rw [if_neg hcond]
    refine ⟨rfl, ?_, ?_, ?_, ?_, ?_, rfl, rfl, rfl, rfl, rfl, rfl, rfl⟩
    · exact fillSlots_deck st.floor st.deck _ hneed hfree
    · exact Multiset.coe_eq_coe.mpr (fillSlots_cards st.floor st.deck _ hneed hfree)
    · exact fillSlots_eq_spec st.floor st.deck _
    · have hp := (fillSlots_cards st.floor st.deck (min 3 st.deck.length) hneed hfree).length_eq
      simp only [List.length_append, List.length_take] at hp
      unfold GameState.floorCardCount at hcount ⊢
      simp only []
      omega
    · intro i c hi
      exact fillSlots_keeps st.floor st.deck _ i c hi
  · intro hnot
    unfold checkAndRefillFloor
    rcases Nat.lt_or_ge 1 st.floorCardCount with h | h
    · rw [if_pos (Or.inl h)]
    · push_neg at hnot
      rw [if_pos (Or.inr (hnot h))]


theorem refill_spec_witness : (checkAndRefillFloor exRefillSt).1 = true :=
  ((refill_spec exRefillSt (by decide)).1 (by decide)).1

/-- `canRun` in terms of its three conditions. -/
lemma canRun_eq (st : GameState) :
    st.canRun = true ↔
      (0 < st.runsRemaining ∧ st.floorFresh = true ∧ 0 < st.floorCardCount) := by
  unfold GameState.canRun
  simp [Bool.and_eq_true, and_assoc]

lemma drop_none4 (k : Nat) (hk : k ≤ 4) :
    ([none, none, none, none] : List (Option Card)).drop k = List.replicate (4 - k) none := by
  interval_cases k <;> rfl

/-- C6: run-away succeeds exactly under `canRun`; the floor cards go to
the bottom of the deck, the floor is redealt with up to 4 cards from
the top, a run is spent, the floor counter advances and the flags
reset; a decline changes nothing. -/
theorem runAway_spec (gs : Settings) (sv : Service) (p : ActionResult × Service)
    (h : resolveFull gs Action.runAway sv = some p) :
    (p.1.success = true ↔
       (0 < sv.state.runsRemaining ∧ sv.state.floorFresh = true ∧
        0 < sv.state.floorCardCount)) ∧
    (p.1.success = false → p.2 = sv) ∧
    (p.1.success = true →
       (let d := sv.state.deck ++ sv.state.floor.filterMap id
        let k := min 4 d.length
        p.2.state.deck = d.drop k ∧
        p.2.state.floor = (d.take k).map some ++ List.replicate (4 - k) none ∧
        p.2.state.runsRemaining = sv.state.runsRemaining - 1 ∧
        p.2.state.floorNumber = sv.state.floorNumber + 1 ∧
        p.2.state.floorFresh = true ∧
        p.2.state.healUsed = false ∧
        p.2.state.health = sv.state.health ∧
        p.2.state.weapon = sv.state.weapon ∧
        p.2.state.weaponDamage = sv.state.weaponDamage ∧
        p.2.state.discard = sv.state.discard)) := by
  unfold resolveFull at h
  simp only [] at h
  unfold handleRunAway at h
  by_cases hc : sv.state.canRun = true
  · rw [if_pos hc] at h
    simp only [if_true, Option.some.injEq] at h
    refine ⟨by simp [← h, (canRun_eq sv.state).mp hc], by intro hf; rw [← h] at hf; simp at hf, ?_⟩
    intro _
    rw [← h]
    unfold drawNewFloorAfterRun
    have hd4 := drop_none4 (min 4 (sv.state.deck ++ sv.state.floor.filterMap id).length)
      (min_le_left _ _)
    simp only [List.length_append] at hd4
    simp only [saveToHistory_state]
    simp [hd4]
  · rw [if_neg hc] at h
    simp only [declined, Bool.false_eq_true, if_false, Option.some.injEq] at h
    refine ⟨?_, by intro _; simp [← h], ?_⟩
    · rw [← h]
      simp only [declined]
      constructor
      · intro hfalse; exact absurd hfalse (by simp)
      · intro hcond; exact absurd (canRun_eq sv.state |>.mpr hcond) hc
    · intro hs
      rw [← h] at hs
      exact absurd hs (by simp [declined])


theorem runAway_spec_witness :
    exRunP.1.success = true ↔
      (0 < exSv.state.runsRemaining ∧ exSv.state.floorFresh = true ∧
       0 < exSv.state.floorCardCount) :=
  (runAway_spec exGs exSv exRunP (by decide)).1

/-- `removeCard` never changes health. -/
lemma removeCard_health (st : GameState) (c : Card) (s : Source) :
    (st.removeCard c s).health = st.health := by
  unfold GameState.removeCard
  cases s
  · rfl
  · dsimp only
    split
    · split <;> rfl
    · rfl

lemma checkGameEnd_snd_health (st : GameState) :
    (checkGameEnd st).2.health = if st.health ≤ 0 then 0 else st.health := by
  have h := postAction_eq st
  unfold postAction at h
  rw [h]

lemma checkAndRefillFloor_health (st : GameState) :
    (checkAndRefillFloor st).2.health = st.health := by
  unfold checkAndRefillFloor
  split <;> rfl

lemma afterAction_health (st : GameState) :
    (afterAction st).health = if st.health ≤ 0 then 0 else st.health := by
  unfold afterAction
  split
  case h_1 st1 heq =>
    have h2 : (checkGameEnd st).2 = st1 := by rw [heq]
    rw [← h2, checkGameEnd_snd_health]
  case h_2 e st1 hne heq =>
    have h2 : (checkGameEnd st).2 = st1 := by rw [heq]
    rw [checkAndRefillFloor_health, ← h2, checkGameEnd_snd_health]

lemma handleHeal_health_le (gs : Settings) (c : Card) (s : Source) (sv : Service)
    (h1 : sv.state.health ≤ gs.maxHealth) (hm : 0 ≤ gs.maxHealth) :
    (handleHeal gs c s sv).2.state.health ≤ gs.maxHealth := by
  have hH : ((saveToHistory sv).state.removeCard c s).health = sv.state.health := by
    rw [removeCard_health, saveToHistory_state]
  unfold handleHeal
  split
  · simp only []
    split
    · simp only [postAction_eq]
      rw [hH, min_def]
      split_ifs <;> omega
    · simp only [postAction_eq]
      rw [hH]
      split_ifs <;> omega
  · exact h1

lemma handleEquipWeapon_health_le (gs : Settings) (c : Card) (s : Source) (sv : Service)
    (h1 : sv.state.health ≤ gs.maxHealth) (hm : 0 ≤ gs.maxHealth) :
    (handleEquipWeapon gs c s sv).2.state.health ≤ gs.maxHealth := by
  have hH : ((saveToHistory sv).state.removeCard c s).health = sv.state.health := by
    rw [removeCard_health, saveToHistory_state]
  unfold handleEquipWeapon
  split
  · simp only []
    split
    · simp only [postAction_eq]
      rw [hH]
      split_ifs <;> omega
    · simp only [postAction_eq]
      rw [hH]
      split_ifs <;> omega
  · exact h1

lemma handleFightMonster_health_le (gs : Settings) (c : Card) (s : Source) (sv : Service)
    (p : ActionResult × Service) (h : handleFightMonster gs c s sv = some p)
    (h1 : sv.state.health ≤ gs.maxHealth) (hm : 0 ≤ gs.maxHealth) :
    p.2.state.health ≤ gs.maxHealth := by
  have hH : ((saveToHistory sv).state.removeCard c s).health = sv.state.health := by
    rw [removeCard_health, saveToHistory_state]
  unfold handleFightMonster at h
  split at h
  · simp only [Option.some.injEq] at h
    rw [← h]; exact h1
  · split at h
    · simp only [Option.some.injEq] at h
      rw [← h]; exact h1
    · simp only [] at h
      split at h
      · simp at h
      · rename_i w hw
        simp only [Option.some.injEq] at h
        rw [← h]
        simp only [postAction_eq]
        rw [hH]
        have hd : (0 : Int) ≤ max 0 (c.value - w.value) := le_max_left 0 _
        split_ifs <;> omega

lemma handleTakeDamage_health_le (gs : Settings) (c : Card) (s : Source) (sv : Service)
    (h1 : sv.state.health ≤ gs.maxHealth) (hm : 0 ≤ gs.maxHealth) :
    (handleTakeDamage gs c s sv).2.state.health ≤ gs.maxHealth := by
  have hH : ((saveToHistory sv).state.removeCard c s).health = sv.state.health := by
    rw [removeCard_health, saveToHistory_state]
  have hv : 0 < c.value := rankValue_pos c.rank
  unfold handleTakeDamage
  split
  · exact h1
  · simp only [postAction_eq]
    rw [hH]
    split_ifs <;> omega

lemma handleDiscardWeapon_health_le (gs : Settings) (sv : Service)
    (h1 : sv.state.health ≤ gs.maxHealth) (hm : 0 ≤ gs.maxHealth) :
    (handleDiscardWeapon sv).2.state.health ≤ gs.maxHealth := by
  unfold handleDiscardWeapon
  split
  · exact h1
  · simp only [postAction_eq, saveToHistory_state]
    split_ifs <;> omega

/-- C9: a fully resolved action keeps health within `[0, maxHealth]`. -/
theorem health_bounds (gs : Settings) (a : Action) (sv : Service)
    (p : ActionResult × Service) (h : resolveFull gs a sv = some p)
    (h0 : 0 ≤ sv.state.health) (h1 : sv.state.health ≤ gs.maxHealth) :
    0 ≤ p.2.state.health ∧ p.2.state.health ≤ gs.maxHealth := by
  have hm : 0 ≤ gs.maxHealth := le_trans h0 h1
  cases a
  case runAway =>
    unfold resolveFull at h
    simp only [] at h
    split_ifs at h with hb
    · simp only [Option.some.injEq] at h
      rw [← h]
      unfold handleRunAway
      by_cases hc : sv.state.canRun = true
      · rw [if_pos hc]
        exact ⟨h0, h1⟩
      · rw [if_neg hc]
        exact ⟨h0, h1⟩
    · simp only [Option.some.injEq] at h
      rw [← h]
      unfold handleRunAway
      by_cases hc : sv.state.canRun = true
      · rw [if_pos hc]
        exact ⟨h0, h1⟩
      · rw [if_neg hc]
        exact ⟨h0, h1⟩
  all_goals {
    unfold resolveFull at h
    simp only [] at h
    rcases hr : resolveAction gs _ sv with _ | q
    · rw [hr] at h; simp at h
    · rw [hr] at h
      simp only [Option.some.injEq] at h
      rw [← h]
      simp only []
      rw [afterAction_health]
      have hle : q.2.state.health ≤ gs.maxHealth := by
        simp only [resolveAction, Option.some.injEq] at hr
        first
        | exact hr ▸ handleHeal_health_le gs _ _ sv h1 hm
        | exact hr ▸ handleEquipWeapon_health_le gs _ _ sv h1 hm
        | exact handleFightMonster_health_le gs _ _ sv q hr h1 hm
        | exact hr ▸ handleTakeDamage_health_le gs _ _ sv h1 hm
        | exact hr ▸ handleDiscardWeapon_health_le gs sv h1 hm
      constructor
      · split_ifs <;> omega
      · split_ifs <;> omega
  }

theorem health_bounds_witness :
    0 ≤ exTankP.2.state.health ∧ exTankP.2.state.health ≤ exGs.maxHealth :=
  health_bounds exGs (Action.tank exC5 Source.floor) exSv exTankP
    (by decide) (by decide) (by decide)

end Crawler
